import Mathlib

/-!
Shallow embedding of `src/scripts/postinstall.cpp` (the claudev postinstall
binary downloader) and proofs of the specification claims about it.

Modelling conventions:
* Host preprocessor conditions (`_WIN32`, `__APPLE__`, `__linux__`,
  `__x86_64__`, `__aarch64__`) become the enumerations `OSFlag` / `ArchFlag`;
  `Platform.detect` mirrors the `#ifdef` cascade and the string-compare chain
  of the source.
* Filesystem paths are lists of path segments (`List String`); `fs::path are
  joined by appending segments.
* The curl transfer is abstracted by its observable outcome: an optional
  transport-error string (`curl_easy_perform` result), the final HTTP response
  code, and the bytes accumulated by the write callback.  `download_file`
  mirrors the source's control flow over these, recording its `stderr` output.
* libarchive parsing is abstracted by whether `archive_read_open_memory`
  succeeds and by the list of entries with the outcome of each entry's
  header-write / data-copy / finish steps; `extract_archive` mirrors the
  extraction loop of the source, recording which files it leaves on disk.
* `main` is the orchestration over an environment `Env` of all these inputs;
  its result is the exit code, the ordered list of side-effect events, and the
  `stderr` log.
-/

namespace Postinstall

/-- Source: `constexpr std::string_view REPO = "openSVM/vibedev";` -/
def REPO : String := "openSVM/vibedev"

/-- Source: `constexpr std::string_view BINARY_NAME = "claudev";` -/
def BINARY_NAME : String := "claudev"

/-- Which OS preprocessor macro is defined on the host (`_WIN32` / `__APPLE__`
/ `__linux__` / none of them), in the priority order of the source's
`#ifdef` / `#elif` chain. -/
inductive OSFlag where
  | win32
  | apple
  | linux
  | otherOS
deriving DecidableEq, Repr, Fintype

/-- Which architecture macro is defined on the host. -/
inductive ArchFlag where
  | x86_64
  | aarch64
  | otherArch
deriving DecidableEq, Repr, Fintype

/-- The `struct Platform` of the source. -/
structure Platform where
  os : String
  arch : String
  target_triple : String
  archive_ext : String
deriving DecidableEq, Repr

/-- Model of `Platform::detect()`: the `#ifdef` cascade fixes `os` and `archive_ext`,
the architecture cascade fixes `arch`, then the string-comparison chain maps
to the Rust target triple.  Fields not assigned keep the `std::string`
default, the empty string. -/
def Platform.detect (osm : OSFlag) (am : ArchFlag) : Platform :=
  let osExt : String × String :=
    match osm with
    | .win32 => ("win32", "zip")
    | .apple => ("darwin", "tar.gz")
    | .linux => ("linux", "tar.gz")
    | .otherOS => ("unknown", "")
  let os := osExt.1
  let arch : String :=
    match am with
    | .x86_64 => "x64"
    | .aarch64 => "arm64"
    | .otherArch => "unknown"
  let triple : String :=
    if os = "darwin" ∧ arch = "x64" then "x86_64-apple-darwin"
    else if os = "darwin" ∧ arch = "arm64" then "aarch64-apple-darwin"
    else if os = "linux" ∧ arch = "x64" then "x86_64-unknown-linux-gnu"
    else if os = "win32" ∧ arch = "x64" then "x86_64-pc-windows-msvc"
    else ""
  { os := os, arch := arch, target_triple := triple, archive_ext := osExt.2 }

/-- Model of `Platform::is_supported()`: `!target_triple.empty()`. -/
def Platform.is_supported (p : Platform) : Bool :=
  !p.target_triple.isEmpty

/-- Model of `Platform::get_binary_name()`: `BINARY_NAME` plus `".exe"` exactly on
`win32`. -/
def Platform.get_binary_name (p : Platform) : String :=
  BINARY_NAME ++ (if p.os = "win32" then ".exe" else "")

/-- Result of `download_file`: the returned `std::optional` buffer together
with the diagnostic lines the function printed to `stderr`. -/
structure DownloadResult where
  result : Option (List Nat)
  stderrLog : List String
deriving DecidableEq, Repr

/-- Model of `download_file`: if `curl_easy_perform` failed (`transportError = some
msg`), print the error and return `nullopt`; otherwise if the final response
code is not `200`, print `HTTP <code>` and return `nullopt`; otherwise return
the accumulated buffer.  In both failure branches the bytes the write callback
accumulated (`body`) are discarded. -/
def download_file (transportError : Option String) (responseCode : Nat)
    (body : List Nat) : DownloadResult :=
  match transportError with
  | some msg => { result := none, stderrLog := ["Download failed: " ++ msg] }
  | none =>
    if responseCode ≠ 200 then
      { result := none, stderrLog := ["HTTP " ++ toString responseCode] }
    else
      { result := some body, stderrLog := [] }

/-- The download URL built in `main`:
`"https://github.com/" + REPO + "/releases/download/v" + version + "/" +
BINARY_NAME + "-" + triple + "." + ext`. -/
def buildUrl (version : String) (p : Platform) : String :=
  "https://github.com/" ++ REPO ++ "/releases/download/v" ++ version ++
    "/" ++ BINARY_NAME ++ "-" ++ p.target_triple ++ "." ++ p.archive_ext

/-- Outcome of the per-entry I/O steps of the extraction loop:
`archive_write_header`, the `archive_read_data_block` /
`archive_write_data_block` copy loop, and `archive_write_finish_entry`. -/
inductive EntryStep where
  | ok
  | headerFail
  | dataWriteFail
  | readFail
  | finishFail
deriving DecidableEq, Repr, Fintype

/-- One archive entry: its stored relative pathname (as path segments) and
the outcome of the I/O steps while processing it. -/
structure ArchEntry where
  pathname : List String
  step : EntryStep
deriving DecidableEq, Repr

/-- A file left on disk by the extraction loop: its full path and whether its
payload was completely written. -/
structure FsFile where
  path : List String
  complete : Bool
deriving DecidableEq, Repr

/-- Processing of a single entry inside the `while` loop of
`extract_archive`: the destination path is `dest_dir / current_file` — the
stored pathname joined to the destination with no validation — and the entry
fails on whichever of its I/O steps fails first.  The pair is (entry
succeeded, files this entry leaves on disk). -/
def extractEntry (dest_dir : List String) (e : ArchEntry) :
    Bool × List FsFile :=
  let full := dest_dir ++ e.pathname
  match e.step with
  | .ok => (true, [{ path := full, complete := true }])
  | .headerFail => (false, [])
  | .dataWriteFail => (false, [{ path := full, complete := false }])
  | .readFail => (false, [{ path := full, complete := false }])
  | .finishFail => (false, [{ path := full, complete := true }])

/-- The extraction loop: process entries in order, stop at the first failing
one with `success = false`; files already written are never removed. -/
def extractLoop (dest_dir : List String) (entries : List ArchEntry)
    (written : List FsFile) : Bool × List FsFile :=
  match entries with
  | [] => (true, written)
  | e :: rest =>
    let r := extractEntry dest_dir e
    if r.1 then extractLoop dest_dir rest (written ++ r.2)
    else (false, written ++ r.2)

/-- Model of `extract_archive(data, dest_dir)`: if `archive_read_open_memory` fails
(`formatOk = false`) return failure having written nothing; otherwise run the
extraction loop over the archive's entries. -/
def extract_archive (formatOk : Bool) (entries : List ArchEntry)
    (dest_dir : List String) : Bool × List FsFile :=
  if formatOk then extractLoop dest_dir entries [] else (false, [])

/-- Lexical path normalization resolving `..` and `.` segments, the standard
filesystem meaning of the resolved path.  Used only to state what it means
for a resolved entry path to escape the destination directory; the source has
no counterpart. -/
def normalizePath (segs : List String) : List String :=
  segs.foldl
    (fun acc s => if s = ".." then acc.dropLast
                  else if s = "." then acc else acc ++ [s]) []

/-- First index of character `c` in `l`, or `none` (C++ `npos`). -/
def firstIdx (c : Char) : List Char → Option Nat
  | [] => none
  | x :: xs => if x = c then some 0 else (firstIdx c xs).map (· + 1)

/-- Model of `std::string::find(c, s)`: first index `≥ s` holding `c`, or `none`
(`npos`; also when `s` is past the end). -/
def findFrom (l : List Char) (c : Char) (s : Nat) : Option Nat :=
  (firstIdx c (l.drop s)).map (· + s)

/-- The quoted-value extraction of `get_package_version` on one matching
line: `start = line.find(q, line.find(colon)) + 1; end = line.find(q, start);
line.substr(start, end - start)` where `q` is the double-quote character.
`find` from `npos` is `npos`; `npos + 1` wraps to `0` in `size_t`; and
`substr` with `npos` length takes the rest of the string. -/
def extractQuoted (line : List Char) : List Char :=
  let colonPos := findFrom line ':' 0
  let quotePos :=
    match colonPos with
    | none => none
    | some cp => findFrom line '"' cp
  let start :=
    match quotePos with
    | none => 0
    | some q => q + 1
  match findFrom line '"' start with
  | none => line.drop start
  | some e => (line.drop start).take (e - start)

/-- The pattern `"version"` (quotes included) searched for by
`line.find("\"version\"")`. -/
def versionPat : List Char := '"' :: "version".toList ++ ['"']

/-- The `while (std::getline(...))` scan of `get_package_version`: return the
quoted value of the first line containing `versionPat`, else the fallback. -/
def scanLines : List (List Char) → List Char
  | [] => "0.5.0".toList
  | l :: rest =>
    if versionPat <:+: l then extractQuoted l else scanLines rest

/-- Model of `get_package_version()`: `"0.5.0"` if the sibling `package.json` cannot
be opened (`fileLines = none`), otherwise the line scan. -/
def get_package_version (fileLines : Option (List (List Char))) :
    List Char :=
  match fileLines with
  | none => "0.5.0".toList
  | some lines => scanLines lines

/-- An observable side effect of `main`: a network request, a successful
directory creation, a file written by extraction, or a `chmod`. -/
inductive Event where
  | network (url : String)
  | mkdir (path : List String)
  | fileWrite (f : FsFile)
  | chmod (path : List String)
deriving DecidableEq, Repr

/-- The environment of one run of the installer: the host platform macros,
whether the target binary already exists, the contents of the sibling
`package.json`, the observable outcome of the curl transfer, whether
`fs::create_directories` succeeds, the parse result and entries of the
downloaded archive, whether `chmod` succeeds, and the package root directory
(`script_dir.parent_path()`). -/
structure Env where
  osm : OSFlag
  am : ArchFlag
  binaryExists : Bool
  packageLines : Option (List (List Char))
  transportError : Option String
  responseCode : Nat
  body : List Nat
  mkdirOk : Bool
  formatOk : Bool
  entries : List ArchEntry
  chmodOk : Bool
  packageRoot : List String

/-- The result of a run of `main`: the process exit code, the ordered trace
of side-effect events, and the `stderr` log. -/
structure RunResult where
  exitCode : Nat
  events : List Event
  stderrLog : List String
deriving DecidableEq, Repr

/-- Model of `main()`: detect the platform; exit 0 if unsupported; exit 0 if the
target binary already exists; build the URL and download (exit 0 on
failure with manual-install guidance); create the bin directory (exit 1 on
failure); extract (exit 1 on failure); `chmod` off-Windows (warning only);
exit 0. -/
def main (env : Env) : RunResult :=
  let platform := Platform.detect env.osm env.am
  if ¬ platform.is_supported then
    { exitCode := 0, events := [],
      stderrLog := ["Unsupported platform: " ++ platform.os ++ "-" ++
                      platform.arch,
                    "Build from source: cargo install claudev"] }
  else
    let bin_dir := env.packageRoot ++ ["bin"]
    let binary_path := bin_dir ++ [platform.get_binary_name]
    if env.binaryExists then
      { exitCode := 0, events := [], stderrLog := [] }
    else
      let version := String.mk (get_package_version env.packageLines)
      let url := buildUrl version platform
      let dl := download_file env.transportError env.responseCode env.body
      match dl.result with
      | none =>
        { exitCode := 0, events := [.network url],
          stderrLog := dl.stderrLog ++
            ["claudev: Download failed",
             "claudev: Install manually: cargo install claudev"] }
      | some _ =>
        if ¬ env.mkdirOk then
          { exitCode := 1, events := [.network url],
            stderrLog := dl.stderrLog ++
              ["Failed to create bin directory"] }
        else
          let ex := extract_archive env.formatOk env.entries bin_dir
          let writes := ex.2.map Event.fileWrite
          if ¬ ex.1 then
            { exitCode := 1,
              events := [.network url, .mkdir bin_dir] ++ writes,
              stderrLog := dl.stderrLog ++ ["claudev: Extraction failed"] }
          else
            if platform.os ≠ "win32" then
              { exitCode := 0,
                events := [.network url, .mkdir bin_dir] ++ writes ++
                            [.chmod binary_path],
                stderrLog := dl.stderrLog ++
                  (if env.chmodOk then []
                   else ["Warning: Failed to set executable permissions"]) }
            else
              { exitCode := 0,
                events := [.network url, .mkdir bin_dir] ++ writes,
                stderrLog := dl.stderrLog }

/-! ## Claim theorems -/

/-- C2: Platform detection maps each of the four supported (os, arch) pairs
to exactly the documented release triple and archive extension, and for every
(os, arch) pair outside that set the triple is empty and `is_supported()` is
false. -/
theorem C2_platform_mapping :
    (Platform.detect .apple .x86_64).target_triple = "x86_64-apple-darwin" ∧
    (Platform.detect .apple .x86_64).archive_ext = "tar.gz" ∧
    (Platform.detect .apple .aarch64).target_triple =
      "aarch64-apple-darwin" ∧
    (Platform.detect .apple .aarch64).archive_ext = "tar.gz" ∧
    (Platform.detect .linux .x86_64).target_triple =
      "x86_64-unknown-linux-gnu" ∧
    (Platform.detect .linux .x86_64).archive_ext = "tar.gz" ∧
    (Platform.detect .win32 .x86_64).target_triple =
      "x86_64-pc-windows-msvc" ∧
    (Platform.detect .win32 .x86_64).archive_ext = "zip" ∧
    (∀ (o : OSFlag) (a : ArchFlag),
      ¬ ((o = OSFlag.apple ∧ a = ArchFlag.x86_64) ∨
         (o = OSFlag.apple ∧ a = ArchFlag.aarch64) ∨
         (o = OSFlag.linux ∧ a = ArchFlag.x86_64) ∨
         (o = OSFlag.win32 ∧ a = ArchFlag.x86_64)) →
      (Platform.detect o a).target_triple = "" ∧
      (Platform.detect o a).is_supported = false) := by
  decide

/-- Witness for C2 at the unsupported pair (win32, arm64). -/
theorem C2_platform_mapping_witness :
    ¬ ((OSFlag.win32 = OSFlag.apple ∧ ArchFlag.aarch64 = ArchFlag.x86_64) ∨
       (OSFlag.win32 = OSFlag.apple ∧
          ArchFlag.aarch64 = ArchFlag.aarch64) ∨
       (OSFlag.win32 = OSFlag.linux ∧ ArchFlag.aarch64 = ArchFlag.x86_64) ∨
       (OSFlag.win32 = OSFlag.win32 ∧
          ArchFlag.aarch64 = ArchFlag.x86_64)) ∧
    (Platform.detect .win32 .aarch64).target_triple = "" ∧
    (Platform.detect .win32 .aarch64).is_supported = false :=
  ⟨by decide,
   C2_platform_mapping.2.2.2.2.2.2.2.2 OSFlag.win32 ArchFlag.aarch64
     (by decide)⟩

/-- C1: the claim requires that an entry whose stored path escapes the
destination is rejected or sanitized.  The code does not enforce this:
`extract_archive` joins the stored path onto the destination unchecked, so
the entry `../../escape` extracted into `pkg/bin` is written, successfully,
to a path that normalizes to `escape` — outside the destination. -/
theorem C1_path_traversal_unsanitized :
    extract_archive true
        [{ pathname := ["..", "..", "escape"], step := .ok }]
        ["pkg", "bin"] =
      (true, [{ path := ["pkg", "bin", "..", "..", "escape"],
                complete := true }]) ∧
    normalizePath (["pkg", "bin"] ++ ["..", "..", "escape"]) = ["escape"] ∧
    ¬ (["pkg", "bin"] <+:
        normalizePath (["pkg", "bin"] ++ ["..", "..", "escape"])) := by
  decide

/-- C3: whenever the target binary path already exists at startup, `main`
exits with code 0 and its event trace is empty — no network call and no
filesystem write. -/
theorem C3_idempotent (env : Env) (h : env.binaryExists = true) :
    (main env).exitCode = 0 ∧ (main env).events = [] := by
  by_cases hs : (Platform.detect env.osm env.am).is_supported = true <;>
    simp [main, h, hs]

/-- A baseline environment for concrete witnesses: linux/x86_64 host, binary
absent, a transfer returning 200 with a one-byte body, all local operations
succeeding. -/
def env0 : Env :=
  { osm := .linux, am := .x86_64, binaryExists := false,
    packageLines := none, transportError := none, responseCode := 200,
    body := [7], mkdirOk := true, formatOk := true,
    entries := [{ pathname := ["claudev"], step := .ok }], chmodOk := true,
    packageRoot := ["pkg"] }

/-- Witness for C3 on a concrete environment with the binary present. -/
theorem C3_idempotent_witness :
    { env0 with binaryExists := true }.binaryExists = true ∧
    (main { env0 with binaryExists := true }).exitCode = 0 ∧
    (main { env0 with binaryExists := true }).events = [] :=
  ⟨rfl, C3_idempotent { env0 with binaryExists := true } rfl⟩

/-- C6: the release URL is the literal concatenation of the fixed host, the
repo, the version, the binary name, the triple and the extension; on the
documented concrete inputs it is exactly the documented string. -/
theorem C6_url_literal :
    buildUrl "0.5.0" (Platform.detect .linux .x86_64) =
      "https://github.com/openSVM/vibedev/releases/download/v0.5.0/claudev-x86_64-unknown-linux-gnu.tar.gz" ∧
    ∀ (version : String) (p : Platform),
      buildUrl version p =
        "https://github.com/" ++ "openSVM/vibedev" ++
          "/releases/download/v" ++ version ++ "/" ++ "claudev" ++ "-" ++
          p.target_triple ++ "." ++ p.archive_ext :=
  ⟨by decide, fun _ _ => rfl⟩

/-- C7: a transport error or a non-2xx final status makes `download_file`
return no buffer — regardless of the bytes already received — and the
diagnostic printed carries the transport error string or the status code. -/
theorem C7_non2xx_failure (te : Option String) (code : Nat)
    (body : List Nat) (h : ¬ (200 ≤ code ∧ code < 300)) :
    (download_file te code body).result = none ∧
    ((∃ m, te = some m ∧
        (download_file te code body).stderrLog =
          ["Download failed: " ++ m]) ∨
     (te = none ∧
        (download_file te code body).stderrLog =
          ["HTTP " ++ toString code])) := by
  cases te with
  | some m => exact ⟨rfl, Or.inl ⟨m, rfl, rfl⟩⟩
  | none =>
    have hc : code ≠ 200 := by omega
    refine ⟨?_, Or.inr ⟨rfl, ?_⟩⟩ <;>
      simp [download_file, hc]

/-- Witness for C7 at status 404 with two bytes already received. -/
theorem C7_non2xx_failure_witness :
    ¬ (200 ≤ 404 ∧ 404 < 300) ∧
    ((download_file none 404 [7, 7]).result = none ∧
     ((∃ m, (none : Option String) = some m ∧
         (download_file none 404 [7, 7]).stderrLog =
           ["Download failed: " ++ m]) ∨
      ((none : Option String) = none ∧
         (download_file none 404 [7, 7]).stderrLog =
           ["HTTP " ++ toString 404]))) :=
  ⟨by decide, C7_non2xx_failure none 404 [7, 7] (by decide)⟩

/-- C10: `download_file` returns a buffer exactly when there is no transport
error and the final status is exactly 200; in particular 204 and 206 yield
failure with the received bytes discarded. -/
theorem C10_success_only_200 :
    (∀ (te : Option String) (code : Nat) (body : List Nat),
      (download_file te code body).result =
        if te = none ∧ code = 200 then some body else none) ∧
    (download_file none 204 [1, 2, 3]).result = none ∧
    (download_file none 206 [1, 2, 3]).result = none := by
  refine ⟨fun te code body => ?_, by decide, by decide⟩
  cases te with
  | some m => simp [download_file]
  | none =>
    by_cases hc : code = 200 <;> simp [download_file, hc]

/-- C4: on a run that reaches the download and the download fails (transport
error or non-2xx final status), `main` exits 0, the only event is the network
request — no directory creation and no file write — and the manual-install
guidance is printed. -/
theorem C4_download_failure_graceful (env : Env)
    (hs : (Platform.detect env.osm env.am).is_supported = true)
    (hb : env.binaryExists = false)
    (hf : env.transportError ≠ none ∨
          ¬ (200 ≤ env.responseCode ∧ env.responseCode < 300)) :
    (main env).exitCode = 0 ∧
    (main env).events =
      [Event.network (buildUrl
         (String.mk (get_package_version env.packageLines))
         (Platform.detect env.osm env.am))] ∧
    "claudev: Install manually: cargo install claudev" ∈
      (main env).stderrLog := by
  have hdl : (download_file env.transportError env.responseCode
      env.body).result = none := by
    cases hte : env.transportError with
    | some m => simp [download_file]
    | none =>
      rcases hf with h | h
      · exact absurd hte h
      · have hc : env.responseCode ≠ 200 := by omega
        simp [download_file, hc]
  simp [main, hs, hb, hdl]

/-- A concrete environment whose download ends with HTTP 404. -/
def env404 : Env := { env0 with responseCode := 404 }

/-- Witness for C4 on the 404 environment. -/
theorem C4_download_failure_graceful_witness :
    (Platform.detect env404.osm env404.am).is_supported = true ∧
    env404.binaryExists = false ∧
    (env404.transportError ≠ none ∨
      ¬ (200 ≤ env404.responseCode ∧ env404.responseCode < 300)) ∧
    ((main env404).exitCode = 0 ∧
     (main env404).events =
       [Event.network (buildUrl
          (String.mk (get_package_version env404.packageLines))
          (Platform.detect env404.osm env404.am))] ∧
     "claudev: Install manually: cargo install claudev" ∈
       (main env404).stderrLog) :=
  ⟨by decide, rfl, Or.inr (by decide),
   C4_download_failure_graceful env404 (by decide) rfl
     (Or.inr (by decide))⟩

/-- C5: on a run whose download succeeds but whose bin-directory creation
fails, `main` exits 1 and the only event is the network request — in
particular no extraction is attempted and no file is written. -/
theorem C5_mkdir_failure_fatal (env : Env)
    (hs : (Platform.detect env.osm env.am).is_supported = true)
    (hb : env.binaryExists = false)
    (ht : env.transportError = none) (hc : env.responseCode = 200)
    (hm : env.mkdirOk = false) :
    (main env).exitCode = 1 ∧
    (main env).events =
      [Event.network (buildUrl
         (String.mk (get_package_version env.packageLines))
         (Platform.detect env.osm env.am))] := by
  simp [main, hs, hb, ht, hc, hm, download_file]

/-- A concrete environment where creating the bin directory fails. -/
def envNoMkdir : Env := { env0 with mkdirOk := false }

/-- Witness for C5 on the failing-mkdir environment. -/
theorem C5_mkdir_failure_fatal_witness :
    (Platform.detect envNoMkdir.osm envNoMkdir.am).is_supported = true ∧
    envNoMkdir.binaryExists = false ∧
    envNoMkdir.transportError = none ∧
    envNoMkdir.responseCode = 200 ∧
    envNoMkdir.mkdirOk = false ∧
    ((main envNoMkdir).exitCode = 1 ∧
     (main envNoMkdir).events =
       [Event.network (buildUrl
          (String.mk (get_package_version envNoMkdir.packageLines))
          (Platform.detect envNoMkdir.osm envNoMkdir.am))]) :=
  ⟨by decide, rfl, rfl, rfl, rfl,
   C5_mkdir_failure_fatal envNoMkdir (by decide) rfl rfl rfl rfl⟩

/-- A fully successful entry writes exactly its complete file. -/
lemma extractEntry_of_ok (dest : List String) {e : ArchEntry}
    (h : e.step = EntryStep.ok) :
    extractEntry dest e =
      (true, [{ path := dest ++ e.pathname, complete := true }]) := by
  simp [extractEntry, h]

/-- A failing entry reports failure. -/
lemma extractEntry_fst_false (dest : List String) {e : ArchEntry}
    (h : e.step ≠ EntryStep.ok) : (extractEntry dest e).1 = false := by
  cases e with
  | mk p s => cases s <;> simp_all [extractEntry]

/-- One step of the extraction loop. -/
lemma extractLoop_cons (dest : List String) (e : ArchEntry)
    (rest : List ArchEntry) (acc : List FsFile) :
    extractLoop dest (e :: rest) acc =
      if (extractEntry dest e).1 = true then
        extractLoop dest rest (acc ++ (extractEntry dest e).2)
      else (false, acc ++ (extractEntry dest e).2) := by
  rfl

/-- Running the loop over a block of fully successful entries appends their
complete files to the accumulator and continues. -/
lemma extractLoop_ok_block (dest : List String) :
    ∀ (pre : List ArchEntry), (∀ x ∈ pre, x.step = EntryStep.ok) →
      ∀ (rest : List ArchEntry) (acc : List FsFile),
        extractLoop dest (pre ++ rest) acc =
          extractLoop dest rest
            (acc ++ pre.map
              (fun x => { path := dest ++ x.pathname, complete := true }))
  | [], _, rest, acc => by simp
  | x :: xs, hpre, rest, acc => by
    have hx : x.step = EntryStep.ok := hpre x (List.mem_cons_self x xs)
    have ih := extractLoop_ok_block dest xs
      (fun y hy => hpre y (List.mem_cons_of_mem x hy)) rest
    rw [List.cons_append, extractLoop_cons, extractEntry_of_ok dest hx]
    rw [if_pos rfl, ih]
    simp

/-- The loop stops with failure at a failing head entry, keeping everything
already written. -/
lemma extractLoop_stop (dest : List String) {e : ArchEntry}
    (h : e.step ≠ EntryStep.ok) (rest : List ArchEntry)
    (acc : List FsFile) :
    extractLoop dest (e :: rest) acc =
      (false, acc ++ (extractEntry dest e).2) := by
  rw [extractLoop_cons, extractEntry_fst_false dest h]
  simp

/-- C8: when an entry fails (header write, data write, or read error), the
extraction stops right there and returns failure, and every file fully
written for the earlier entries is still on disk: the final file list is
exactly the earlier complete files followed by whatever the failing entry
left. -/
theorem C8_stop_at_first_failure (dest : List String)
    (pre : List ArchEntry) (e : ArchEntry) (post : List ArchEntry)
    (hpre : ∀ x ∈ pre, x.step = EntryStep.ok)
    (he : e.step ≠ EntryStep.ok) :
    extract_archive true (pre ++ e :: post) dest =
      (false,
       pre.map (fun x => { path := dest ++ x.pathname, complete := true }) ++
         (extractEntry dest e).2) ∧
    ∀ x ∈ pre,
      ({ path := dest ++ x.pathname, complete := true } : FsFile) ∈
        (extract_archive true (pre ++ e :: post) dest).2 := by
  have h1 : extract_archive true (pre ++ e :: post) dest =
      (false,
       pre.map (fun x => { path := dest ++ x.pathname, complete := true }) ++
         (extractEntry dest e).2) := by
    unfold extract_archive
    rw [if_pos rfl]
    rw [extractLoop_ok_block dest pre hpre (e :: post) []]
    rw [extractLoop_stop dest he post]
    simp
  refine ⟨h1, fun x hx => ?_⟩
  rw [h1]
  simp only [List.mem_append, List.mem_map]
  exact Or.inl ⟨x, hx, rfl⟩

/-- Witness for C8: one good entry, then a header-write failure, then one
further entry that is never reached. -/
theorem C8_stop_at_first_failure_witness :
    (∀ x ∈ [({ pathname := ["a"], step := .ok } : ArchEntry)],
       x.step = EntryStep.ok) ∧
    ({ pathname := ["b"], step := .headerFail } : ArchEntry).step ≠
      EntryStep.ok ∧
    (extract_archive true
        ([{ pathname := ["a"], step := .ok }] ++
          ({ pathname := ["b"], step := .headerFail } : ArchEntry) ::
            [{ pathname := ["c"], step := .ok }]) ["d", "bin"] =
      (false,
       [({ pathname := ["a"], step := .ok } : ArchEntry)].map
           (fun x => { path := ["d", "bin"] ++ x.pathname,
                       complete := true }) ++
         (extractEntry ["d", "bin"]
           { pathname := ["b"], step := .headerFail }).2) ∧
     ∀ x ∈ [({ pathname := ["a"], step := .ok } : ArchEntry)],
       ({ path := ["d", "bin"] ++ x.pathname, complete := true } : FsFile) ∈
         (extract_archive true
           ([{ pathname := ["a"], step := .ok }] ++
             ({ pathname := ["b"], step := .headerFail } : ArchEntry) ::
               [{ pathname := ["c"], step := .ok }]) ["d", "bin"]).2) :=
  ⟨by decide, by decide,
   C8_stop_at_first_failure ["d", "bin"]
     [{ pathname := ["a"], step := .ok }]
     { pathname := ["b"], step := .headerFail }
     [{ pathname := ["c"], step := .ok }] (by decide) (by decide)⟩

/-- Searching with `firstIdx` skips a block not containing the searched character. -/
lemma firstIdx_append_of_not_mem {c : Char} :
    ∀ {xs : List Char}, c ∉ xs → ∀ ys : List Char,
      firstIdx c (xs ++ ys) = (firstIdx c ys).map (· + xs.length)
  | [], _, ys => by
    cases h : firstIdx c ys <;> simp [h]
  | x :: xs, h, ys => by
    have hx : ¬ x = c := by
      rintro rfl
      exact h (List.mem_cons_self x xs)
    have ih := firstIdx_append_of_not_mem
      (fun hm => h (List.mem_cons_of_mem x hm)) ys
    rw [List.cons_append]
    simp only [firstIdx, hx, if_false, ih]
    cases firstIdx c ys with
    | none => simp
    | some n => simp; omega

/-- Searching with `firstIdx` at a head holding the searched character. -/
lemma firstIdx_cons_self (c : Char) (ys : List Char) :
    firstIdx c (c :: ys) = some 0 := by
  simp [firstIdx]

/-- The quoted-value extraction on a well-formed line: text `a` without a
colon, the colon, text `b` without a quote, the opening quote, the value `v`
without a quote, the closing quote, and a tail `c`.  The extraction returns
exactly `v`. -/
lemma extractQuoted_wellFormed (a b v c : List Char)
    (ha : ':' ∉ a) (hb : '"' ∉ b) (hv : '"' ∉ v) :
    extractQuoted (a ++ [':'] ++ b ++ ['"'] ++ v ++ ['"'] ++ c) = v := by
  have hassoc :
      a ++ [':'] ++ b ++ ['"'] ++ v ++ ['"'] ++ c =
        a ++ (':' :: (b ++ ('"' :: (v ++ ('"' :: c))))) := by
    simp [List.append_assoc]
  have hq1 : ('"' : Char) ∉ (':' :: b) := by
    intro hm
    rcases List.mem_cons.mp hm with h | h
    · exact absurd h (by decide)
    · exact hb h
  have h0 : findFrom (a ++ (':' :: (b ++ ('"' :: (v ++ ('"' :: c))))))
      ':' 0 = some a.length := by
    show (firstIdx ':'
        ((a ++ (':' :: (b ++ ('"' :: (v ++ ('"' :: c)))))).drop 0)).map
        (· + 0) = some a.length
    rw [List.drop_zero, firstIdx_append_of_not_mem ha, firstIdx_cons_self]
    simp
  have hdropA : (a ++ (':' :: (b ++ ('"' :: (v ++ ('"' :: c)))))).drop
      a.length = ':' :: (b ++ ('"' :: (v ++ ('"' :: c)))) :=
    List.drop_left a _
  have h1 : findFrom (a ++ (':' :: (b ++ ('"' :: (v ++ ('"' :: c))))))
      '"' a.length = some (b.length + 1 + a.length) := by
    show (firstIdx '"'
        ((a ++ (':' :: (b ++ ('"' :: (v ++ ('"' :: c)))))).drop
          a.length)).map (· + a.length) = some (b.length + 1 + a.length)
    rw [hdropA]
    have : (':' :: (b ++ ('"' :: (v ++ ('"' :: c))))) =
        ((':' :: b) ++ ('"' :: (v ++ ('"' :: c)))) := by
      simp
    rw [this, firstIdx_append_of_not_mem hq1, firstIdx_cons_self]
    simp [Nat.add_comm]
  have hsplit : a ++ (':' :: (b ++ ('"' :: (v ++ ('"' :: c))))) =
      (a ++ (':' :: (b ++ ['"']))) ++ (v ++ ('"' :: c)) := by
    simp
  have hdropS : (a ++ (':' :: (b ++ ('"' :: (v ++ ('"' :: c)))))).drop
      (b.length + 1 + a.length + 1) = v ++ ('"' :: c) := by
    rw [hsplit]
    refine List.drop_left' ?_
    simp
    omega
  have h2 : findFrom (a ++ (':' :: (b ++ ('"' :: (v ++ ('"' :: c))))))
      '"' (b.length + 1 + a.length + 1) =
      some (v.length + (b.length + 1 + a.length + 1)) := by
    show (firstIdx '"'
        ((a ++ (':' :: (b ++ ('"' :: (v ++ ('"' :: c)))))).drop
          (b.length + 1 + a.length + 1))).map
        (· + (b.length + 1 + a.length + 1)) =
      some (v.length + (b.length + 1 + a.length + 1))
    rw [hdropS, firstIdx_append_of_not_mem hv, firstIdx_cons_self]
    simp [Nat.add_comm]
  rw [hassoc]
  simp only [extractQuoted, h0, h1, h2]
  rw [hdropS, Nat.add_sub_cancel]
  exact List.take_left v _

/-- Scanning lines none of which contains the version pattern falls through
to the fallback. -/
lemma scanLines_no_match :
    ∀ {lines : List (List Char)},
      (∀ l ∈ lines, ¬ (versionPat <:+: l)) →
      scanLines lines = "0.5.0".toList
  | [], _ => rfl
  | l :: rest, h => by
    have hl : ¬ (versionPat <:+: l) := h l (List.mem_cons_self l rest)
    have ih := scanLines_no_match
      (fun y hy => h y (List.mem_cons_of_mem l hy))
    simp [scanLines, hl, ih]

/-- Scanning skips a block of non-matching lines. -/
lemma scanLines_skip :
    ∀ {pre : List (List Char)},
      (∀ l ∈ pre, ¬ (versionPat <:+: l)) →
      ∀ rest : List (List Char),
        scanLines (pre ++ rest) = scanLines rest
  | [], _, rest => rfl
  | l :: pre, h, rest => by
    have hl : ¬ (versionPat <:+: l) := h l (List.mem_cons_self l pre)
    have ih := scanLines_skip
      (fun y hy => h y (List.mem_cons_of_mem l hy)) rest
    simp [scanLines, hl, ih]

/-- C9: `get_package_version` scans the metadata file line by line for the
quoted `"version"` field and returns the quoted value of the first matching
line; a missing file or a scan with no matching line yields the fixed
fallback `"0.5.0"`. -/
theorem C9_version_reader :
    get_package_version none = "0.5.0".toList ∧
    (∀ lines : List (List Char),
      (∀ l ∈ lines, ¬ (versionPat <:+: l)) →
      get_package_version (some lines) = "0.5.0".toList) ∧
    (∀ (pre : List (List Char)) (a b v c : List Char)
       (post : List (List Char)),
      (∀ l ∈ pre, ¬ (versionPat <:+: l)) →
      versionPat <:+: (a ++ [':'] ++ b ++ ['"'] ++ v ++ ['"'] ++ c) →
      ':' ∉ a → '"' ∉ b → '"' ∉ v →
      get_package_version
          (some (pre ++ (a ++ [':'] ++ b ++ ['"'] ++ v ++ ['"'] ++ c)
            :: post)) = v) := by
  refine ⟨rfl, fun lines h => scanLines_no_match h, ?_⟩
  intro pre a b v c post hpre hmatch ha hb hv
  show scanLines (pre ++ (a ++ [':'] ++ b ++ ['"'] ++ v ++ ['"'] ++ c)
      :: post) = v
  rw [scanLines_skip hpre]
  simp only [scanLines, hmatch, if_true]
  exact extractQuoted_wellFormed a b v c ha hb hv

/-- Witness for C9 on a concrete two-line package.json whose version is
`1.2.3`. -/
theorem C9_version_reader_witness :
    (∀ l ∈ ["  \"name\": \"claudev\",".toList],
      ¬ (versionPat <:+: l)) ∧
    versionPat <:+:
      ("  \"version\"".toList ++ [':'] ++ " ".toList ++ ['"'] ++
        "1.2.3".toList ++ ['"'] ++ ",".toList) ∧
    ':' ∉ "  \"version\"".toList ∧
    '"' ∉ " ".toList ∧
    '"' ∉ "1.2.3".toList ∧
    get_package_version
        (some (["  \"name\": \"claudev\",".toList] ++
          ("  \"version\"".toList ++ [':'] ++ " ".toList ++ ['"'] ++
            "1.2.3".toList ++ ['"'] ++ ",".toList) :: [])) =
      "1.2.3".toList :=
  ⟨by decide, by decide, by decide, by decide, by decide,
   C9_version_reader.2.2 ["  \"name\": \"claudev\",".toList]
     "  \"version\"".toList " ".toList "1.2.3".toList ",".toList []
     (by decide) (by decide) (by decide) (by decide) (by decide)⟩

end Postinstall
